import Mathlib

/-!
Shallow embedding of the air-quality data pipeline.

Conventions used throughout this development:
* A text line is embedded as its character sequence (`List Char`); decoding of
  raw serial bytes with `errors='ignore'` is outside the model, which starts
  from the decoded text.
* Python `float` values are embedded as exact rationals (`ℚ`).  Every numeric
  property stated below is robust to double-precision rounding at the inputs
  at which it is evaluated.
* Python exceptions are embedded by totality: a fallible routine is a total
  function into `Option`, `none` standing for the rejected/error outcome.
* Timestamps are embedded as seconds (`Nat`); `datetime.replace(minute=0,
  second=0, microsecond=0)` becomes truncation to a multiple of 3600.
-/

/-! ## Character-level helpers (Python `str` methods used by the parser) -/

/-- ASCII whitespace recognised by Python `str.strip`. -/
def isSpaceB (c : Char) : Bool :=
  decide (c.toNat = 32 ∨ c.toNat = 9 ∨ c.toNat = 10 ∨ c.toNat = 13 ∨
    c.toNat = 11 ∨ c.toNat = 12)

/-- Whitespace test on a character code; `isSpaceB` factored through `Char.toNat`. -/
def isSpaceN (n : Nat) : Bool :=
  decide (n = 32 ∨ n = 9 ∨ n = 10 ∨ n = 13 ∨ n = 11 ∨ n = 12)

/-- Character code after Python `str.upper` (ASCII): lowercase letters are
shifted to uppercase, everything else is unchanged.  Keys are compared through
this code so that the embedding never has to rebuild a `Char` from a code. -/
def canonN (c : Char) : Nat :=
  if 97 ≤ c.toNat ∧ c.toNat ≤ 122 then c.toNat - 32 else c.toNat

/-- Python `str.strip` on a character list. -/
def pyStrip (l : List Char) : List Char :=
  ((l.dropWhile isSpaceB).reverse.dropWhile isSpaceB).reverse

/-- `pyStrip` transported to character codes. -/
def pyStripN (l : List Nat) : List Nat :=
  ((l.dropWhile isSpaceN).reverse.dropWhile isSpaceN).reverse

/-- Python `line.split(sep)` for a one-character separator: keeps empty
pieces, always returns at least one piece. -/
def splitOnChar (sep : Char) : List Char → List (List Char)
  | [] => [[]]
  | c :: rest =>
    let ps := splitOnChar sep rest
    if c = sep then [] :: ps
    else
      match ps with
      | [] => [[c]]
      | p :: ps2 => (c :: p) :: ps2

/-- Python `part.split(sep, 1)` guarded by `sep in part`: `none` when the
separator does not occur, otherwise the pieces before and after its first
occurrence. -/
def splitFirst (sep : Char) : List Char → Option (List Char × List Char)
  | [] => none
  | c :: rest =>
    if c = sep then some ([], rest)
    else
      match splitFirst sep rest with
      | none => none
      | some (k, v) => some (c :: k, v)

def isDigitB (c : Char) : Bool := decide (48 ≤ c.toNat ∧ c.toNat ≤ 57)

def natOfDigits (l : List Char) : Nat :=
  l.foldl (fun a c => 10 * a + (c.toNat - 48)) 0

/-- Python `float(value)` on an already-stripped string, embedded over `ℚ`:
optional sign, decimal digits with an optional fractional part, optional
decimal exponent.  (The special forms `inf`/`nan` and digit underscores are
outside the model; no claim depends on them.)  `none` models `ValueError`. -/
def pyFloat? (s : List Char) : Option ℚ :=
  let (sgn, s1) : ℚ × List Char :=
    match s with
    | '+' :: r => (1, r)
    | '-' :: r => (-1, r)
    | r => (1, r)
  let intD := s1.takeWhile isDigitB
  let s2 := s1.dropWhile isDigitB
  let (fracD, s3) : List Char × List Char :=
    match s2 with
    | '.' :: r => (r.takeWhile isDigitB, r.dropWhile isDigitB)
    | r => ([], r)
  if intD.isEmpty ∧ fracD.isEmpty then none
  else
    let mant : ℚ := (natOfDigits intD : ℚ) + (natOfDigits fracD : ℚ) / (10 : ℚ) ^ fracD.length
    match s3 with
    | [] => some (sgn * mant)
    | c :: r =>
      if c = 'e' ∨ c = 'E' then
        let (esgn, r1) : ℤ × List Char :=
          match r with
          | '+' :: r2 => (1, r2)
          | '-' :: r2 => (-1, r2)
          | r2 => (1, r2)
        let eD := r1.takeWhile isDigitB
        let r2 := r1.dropWhile isDigitB
        if eD.isEmpty ∨ ¬ r2.isEmpty then none
        else some (sgn * mant * (10 : ℚ) ^ (esgn * (natOfDigits eD : ℤ)))
      else none

/-! ## LineParser (`ArduinoReader._parse_data` in `src/arduino_reader.py`) -/

/-- The five sensor fields a `KEY:VALUE` token can target. -/
inductive SField where
  | pm1
  | pm25
  | pm10
  | temperature
  | humidity
deriving DecidableEq

/-- Accumulator for the parser's `data` dictionary: one optional value per
recognised field. -/
structure ParseAcc where
  pm1 : Option ℚ
  pm25 : Option ℚ
  pm10 : Option ℚ
  temperature : Option ℚ
  humidity : Option ℚ
deriving DecidableEq

def emptyAcc : ParseAcc := ⟨none, none, none, none, none⟩

def getField (acc : ParseAcc) : SField → Option ℚ
  | SField.pm1 => acc.pm1
  | SField.pm25 => acc.pm25
  | SField.pm10 => acc.pm10
  | SField.temperature => acc.temperature
  | SField.humidity => acc.humidity

def setField (acc : ParseAcc) : SField → ℚ → ParseAcc
  | SField.pm1, v => { acc with pm1 := some v }
  | SField.pm25, v => { acc with pm25 := some v }
  | SField.pm10, v => { acc with pm10 := some v }
  | SField.temperature, v => { acc with temperature := some v }
  | SField.humidity, v => { acc with humidity := some v }

/-- Key dispatch of the source's `if key == 'PM1' or key == 'PM1.0': ...`
chain, on the `str.upper` character codes of the stripped key. -/
def keyFieldN (u : List Nat) : Option SField :=
  if u = (("PM1").toList.map Char.toNat) ∨ u = (("PM1.0").toList.map Char.toNat) then
    some SField.pm1
  else if u = (("PM25").toList.map Char.toNat) ∨ u = (("PM2.5").toList.map Char.toNat) then
    some SField.pm25
  else if u = (("PM10").toList.map Char.toNat) then
    some SField.pm10
  else if u = (("TEMP").toList.map Char.toNat) ∨ u = (("TEMPERATURE").toList.map Char.toNat) then
    some SField.temperature
  else if u = (("HUM").toList.map Char.toNat) ∨ u = (("HUMIDITY").toList.map Char.toNat) then
    some SField.humidity
  else none

def keyField? (k : List Char) : Option SField :=
  keyFieldN (k.map canonN)

/-- What one `KEY:VALUE` token contributes: the targeted field and parsed
value, or `none` when the token has no colon, an unrecognised key, or an
unparseable value (the source's silent `pass`). -/
def decodeToken (part : List Char) : Option (SField × ℚ) :=
  match splitFirst ':' part with
  | none => none
  | some (k, v) =>
    match keyField? (pyStrip k) with
    | none => none
    | some f =>
      match pyFloat? (pyStrip v) with
      | none => none
      | some q => some (f, q)

/-- One iteration of the source's `for part in parts` loop: a decoded token
overwrites the field in the dictionary, anything else leaves it unchanged. -/
def parseToken (acc : ParseAcc) (part : List Char) : ParseAcc :=
  match decodeToken part with
  | none => acc
  | some (f, v) => setField acc f v

/-- The parser's `data` dictionary after the token loop. -/
def extractData (line : List Char) : ParseAcc :=
  (splitOnChar ',' line).foldl parseToken emptyAcc

/-- A valid reading: `pm25`, `temperature`, `humidity` mandatory, `pm1` and
`pm10` optional.  The parse-time timestamp is not part of the parsing model. -/
structure ParsedData where
  pm1 : Option ℚ
  pm25 : ℚ
  pm10 : Option ℚ
  temperature : ℚ
  humidity : ℚ
deriving DecidableEq

/-- `ArduinoReader._parse_data`: `none` models the `Rejected` outcome (missing
required key, or any exception caught by the source's `try`). -/
def parse_data (line : List Char) : Option ParsedData :=
  match (extractData line).pm25, (extractData line).temperature, (extractData line).humidity with
  | some p, some t, some hu => some ⟨(extractData line).pm1, p, (extractData line).pm10, t, hu⟩
  | _, _, _ => none

/-! ## AQI (`AirQualityDatabase.calculate_aqi` in `src/database.py`) -/

/-- Python `int()` on a rational: truncation toward zero. -/
def pyInt (x : ℚ) : ℤ :=
  if x < 0 then -⌊-x⌋ else ⌊x⌋

/-- `calculate_aqi` for a non-`None` pm2.5 value, band for band from the
source. -/
def calculate_aqi (pm25 : ℚ) : ℤ :=
  if pm25 ≤ 12.0 then pyInt ((50.0 / 12.0) * pm25)
  else if pm25 ≤ 35.4 then pyInt (50 + (50.0 / 23.4) * (pm25 - 12.1))
  else if pm25 ≤ 55.4 then pyInt (100 + (50.0 / 20.0) * (pm25 - 35.5))
  else if pm25 ≤ 150.4 then pyInt (150 + (50.0 / 94.9) * (pm25 - 55.5))
  else if pm25 ≤ 250.4 then pyInt (200 + (100.0 / 99.9) * (pm25 - 150.5))
  else pyInt (300 + (200.0 / 249.9) * (min pm25 500.4 - 250.5))

/-! ## Aggregator and rollover (`DataScheduler` in `src/scheduler.py`) -/

/-- One reading as the scheduler sees it: the parser's dictionary, accessed
with `dict.get` (hence every metric optional), plus its capture timestamp. -/
structure SReading where
  pm1 : Option ℚ
  pm25 : Option ℚ
  pm10 : Option ℚ
  temperature : Option ℚ
  humidity : Option ℚ
  timestamp : Nat
deriving DecidableEq

/-- The hourly summary record built by `calculate_hourly_average`. -/
structure HourlyAvg where
  timestamp : Nat
  pm1_avg : Option ℚ
  pm25_avg : Option ℚ
  pm10_avg : Option ℚ
  temperature_avg : Option ℚ
  humidity_avg : Option ℚ
  sample_count : Nat
  aqi_avg : Option ℤ
deriving DecidableEq

/-- `datetime.now().replace(minute=0, second=0, microsecond=0)`: truncation of
a second count to the enclosing hour boundary. -/
def truncHour (t : Nat) : Nat := t / 3600 * 3600

/-- `sum(vals) / len(vals) if vals else None`, shared by the five metrics. -/
def listAvg (l : List ℚ) : Option ℚ :=
  if l.isEmpty then none else some (l.sum / (l.length : ℚ))

/-- Python truthiness of an optional float: `None` and `0.0` are falsy. -/
def pyTruthyQ (o : Option ℚ) : Bool :=
  match o with
  | none => false
  | some v => decide (v ≠ 0)

/-- `DataScheduler.calculate_hourly_average`, with the wall-clock time at
which it runs passed explicitly as `now`. -/
def calculate_hourly_average (data : List SReading) (now : Nat) : Option HourlyAvg :=
  if data.isEmpty then none
  else
    let pm25_avg := listAvg (data.filterMap SReading.pm25)
    some {
      timestamp := truncHour now
      pm1_avg := listAvg (data.filterMap SReading.pm1)
      pm25_avg := pm25_avg
      pm10_avg := listAvg (data.filterMap SReading.pm10)
      temperature_avg := listAvg (data.filterMap SReading.temperature)
      humidity_avg := listAvg (data.filterMap SReading.humidity)
      sample_count := data.length
      aqi_avg := if pyTruthyQ pm25_avg then pm25_avg.map calculate_aqi else none
    }

/-- Scheduler state: the current hour's buffer and the last saved summary. -/
structure SchedState where
  current_hour_data : List SReading
  last_hourly_sample : Option HourlyAvg
deriving DecidableEq

/-- `DataScheduler.save_hourly_sample`: saves a summary when the buffer is
non-empty (the emitted summary is the second component, modelling the
`save_hourly_average` database write), updates `last_hourly_sample` only on a
save, and clears the buffer in every case. -/
def save_hourly_sample (s : SchedState) (now : Nat) : SchedState × Option HourlyAvg :=
  match calculate_hourly_average s.current_hour_data now with
  | some h => (⟨[], some h⟩, some h)
  | none => (⟨[], s.last_hourly_sample⟩, none)

def minuteOf (t : Nat) : Nat := t / 60 % 60

def secondOf (t : Nat) : Nat := t % 60

/-- One iteration of the `DataScheduler._run` loop body at wall-clock `now`:
the exact-minute trigger (`now.minute == 0 and now.second < 10`) followed by
the elapsed-time safety trigger (`(now - last_time).total_seconds() >= 3600`),
both evaluated against the same `now` read at the top of the iteration.
Returns the new state and the summaries emitted this cycle. -/
def scheduler_tick (s : SchedState) (now : Nat) : SchedState × List HourlyAvg :=
  let step1 := if minuteOf now = 0 ∧ secondOf now < 10 then save_hourly_sample s now else (s, none)
  let step2 :=
    match step1.1.last_hourly_sample with
    | some h =>
      if (3600 : ℤ) ≤ (now : ℤ) - (h.timestamp : ℤ) then save_hourly_sample step1.1 now
      else (step1.1, none)
    | none => (step1.1, none)
  (step2.1, step1.2.toList ++ step2.2.toList)

/-- `DataScheduler.on_new_data`: append the reading to the current buffer. -/
def on_new_data (s : SchedState) (r : SReading) : SchedState :=
  ⟨s.current_hour_data ++ [r], s.last_hourly_sample⟩

/-- An event of the scheduler's life: a reading arriving from the device
callback, or one loop iteration at a given wall-clock time. -/
inductive SchedEvent where
  | ingest (r : SReading)
  | tick (now : Nat)

/-- Run a sequence of scheduler events, collecting every emitted summary. -/
def runSched : SchedState → List SchedEvent → SchedState × List HourlyAvg
  | s, [] => (s, [])
  | s, SchedEvent.ingest r :: es => runSched (on_new_data s r) es
  | s, SchedEvent.tick now :: es =>
    let step := scheduler_tick s now
    let rest := runSched step.1 es
    (rest.1, step.2 ++ rest.2)

/-! ## DeviceLink read loop (`ArduinoReader._read_loop` in `src/arduino_reader.py`) -/

/-- What the serial layer does in one poll: delivers a full line, has nothing
buffered, or raises an I/O error. -/
inductive ReadEvent where
  | line (raw : List Char)
  | noData
  | ioError

/-- The loop-relevant `ArduinoReader` state: the `running` flag and the
`is_connected` flag. -/
structure ReaderState where
  running : Bool
  is_connected : Bool
deriving DecidableEq

/-- One iteration of the `while self.running` body: on a line, strip it and,
when non-empty, parse it (the parsed reading models the callback dispatch);
on an I/O error, set `is_connected := false` and sleep 5 s; otherwise sleep
the 0.1 s idle interval.  Returns (state, dispatched reading, sleep seconds). -/
def read_loop_step (st : ReaderState) (ev : ReadEvent) : ReaderState × Option ParsedData × ℚ :=
  match ev with
  | ReadEvent.ioError => ({ st with is_connected := false }, none, 5)
  | ReadEvent.noData => (st, none, 1 / 10)
  | ReadEvent.line raw =>
    let l := pyStrip raw
    if l.isEmpty then (st, none, 1 / 10)
    else (st, parse_data l, 1 / 10)

/-- Run the read loop over a sequence of poll outcomes: each iteration first
checks `running` (loop exit), then executes the body.  No caller restart of
the loop occurs inside a run.  Collects every dispatched reading. -/
def run_read_loop : ReaderState → List ReadEvent → ReaderState × List ParsedData
  | st, [] => (st, [])
  | st, ev :: evs =>
    if st.running then
      let step := read_loop_step st ev
      let rest := run_read_loop step.1 evs
      (rest.1, step.2.1.toList ++ rest.2)
    else (st, [])

/-! ## Spec-side definitions, used to compare the code with the specification -/

/-- The specification's per-metric average: undefined exactly for an empty
contribution list, and otherwise the arithmetic mean, stated multiplicatively. -/
def specAvgOK (vals : List ℚ) : Option ℚ → Prop
  | none => vals = []
  | some q => vals ≠ [] ∧ (vals.length : ℚ) * q = vals.sum

/-- The value of the last token (in left-to-right order) that assigns to field
`f`, if any. -/
def lastAssign (f : SField) : List (List Char) → Option ℚ
  | [] => none
  | t :: ts =>
    match lastAssign f ts with
    | some v => some v
    | none =>
      match decodeToken t with
      | some (g, v) => if g = f then some v else none
      | none => none

/-- How many tokens of the list assign to field `f`. -/
def numAssigns (f : SField) (ps : List (List Char)) : Nat :=
  (ps.filterMap decodeToken).countP (fun a => a.1 == f)

/-- Pointwise case-equivalence of two character lists: same characters up to
ASCII letter case. -/
def listCaseEqB : List Char → List Char → Bool
  | [], [] => true
  | c :: k, c2 :: k2 => (canonN c == canonN c2) && listCaseEqB k k2
  | _, _ => false

/-- Two tokens equal up to a change of casing on the key: both colon-free, or
both split at a first colon into case-equivalent keys and identical values. -/
def tokenCaseEqB (t t2 : List Char) : Bool :=
  match splitFirst ':' t, splitFirst ':' t2 with
  | none, none => true
  | some (k, v), some (k2, v2) => listCaseEqB k k2 && (v == v2)
  | _, _ => false

/-- Tokenwise case-equivalence of two token lists. -/
def tokensCaseEqB : List (List Char) → List (List Char) → Bool
  | [], [] => true
  | t :: ts, t2 :: ts2 => tokenCaseEqB t t2 && tokensCaseEqB ts ts2
  | _, _ => false

/-- Helper: an option with a fallback, used to state the fold lemma. -/
def orDefault (o : Option ℚ) (d : Option ℚ) : Option ℚ :=
  match o with
  | some v => some v
  | none => d

set_option maxRecDepth 8192

/-! ## Parser lemmas -/

theorem getField_setField (acc : ParseAcc) (g : SField) (v : ℚ) (f : SField) :
    getField (setField acc g v) f = if g = f then some v else getField acc f := by
  cases g <;> cases f <;> simp [getField, setField]

theorem getField_foldl (ps : List (List Char)) (acc : ParseAcc) (f : SField) :
    getField (ps.foldl parseToken acc) f = orDefault (lastAssign f ps) (getField acc f) := by
  induction ps generalizing acc with
  | nil => rfl
  | cons t ts ih =>
    rw [List.foldl_cons, ih]
    cases hl : lastAssign f ts with
    | some v => simp [lastAssign, hl, orDefault]
    | none =>
      cases hd : decodeToken t with
      | none => simp [lastAssign, hl, hd, orDefault, parseToken]
      | some a =>
        obtain ⟨g, v⟩ := a
        simp only [lastAssign, hl, hd, orDefault, parseToken, getField_setField]
        by_cases hgf : g = f
        · simp [hgf]
        · simp [hgf]

theorem lastAssign_none_iff (f : SField) (ps : List (List Char)) :
    lastAssign f ps = none ↔ numAssigns f ps = 0 := by
  induction ps with
  | nil => simp [lastAssign, numAssigns]
  | cons t ts ih =>
    simp only [numAssigns, List.filterMap_cons] at ih ⊢
    cases hd : decodeToken t with
    | none =>
      cases hl : lastAssign f ts with
      | some v =>
        have hne : ¬ ((ts.filterMap decodeToken).countP (fun a => a.1 == f) = 0) := by
          rw [← ih]
          simp [hl]
        simp [lastAssign, hl, hd, hne]
      | none =>
        have h0 : (ts.filterMap decodeToken).countP (fun a => a.1 == f) = 0 := ih.mp hl
        simp [lastAssign, hl, hd, h0]
    | some a =>
      obtain ⟨g, v⟩ := a
      simp only [List.countP_cons]
      cases hl : lastAssign f ts with
      | some w =>
        have hne : ¬ ((ts.filterMap decodeToken).countP (fun a => a.1 == f) = 0) := by
          rw [← ih]
          simp [hl]
        simp only [lastAssign, hl]
        constructor
        · intro hfalse
          exact absurd hfalse (by simp)
        · intro hzero
          omega
      | none =>
        have h0 : (ts.filterMap decodeToken).countP (fun a => a.1 == f) = 0 := ih.mp hl
        simp only [lastAssign, hl, hd]
        by_cases hgf : g = f
        · simp [hgf, h0]
        · simp [hgf, h0]

theorem lastAssign_mem {f : SField} {v : ℚ} : ∀ {ps : List (List Char)},
    lastAssign f ps = some v → (f, v) ∈ ps.filterMap decodeToken := by
  intro ps
  induction ps with
  | nil => intro h; simp [lastAssign] at h
  | cons t ts ih =>
    intro h
    rw [List.filterMap_cons]
    cases hl : lastAssign f ts with
    | some w =>
      rw [lastAssign, hl] at h
      have hw : w = v := by simpa using h
      subst hw
      cases decodeToken t <;> simp [ih hl]
    | none =>
      cases hd : decodeToken t with
      | none =>
        simp only [lastAssign, hl, hd] at h
        exact absurd h (by simp)
      | some a =>
        obtain ⟨g, w⟩ := a
        simp only [lastAssign, hl, hd] at h
        by_cases hgf : g = f
        · rw [if_pos hgf] at h
          have hw : w = v := by simpa using h
          subst hw hgf
          simp
        · rw [if_neg hgf] at h
          exact absurd h (by simp)

theorem mem_lastAssign {f : SField} {v : ℚ} : ∀ {ps : List (List Char)},
    numAssigns f ps ≤ 1 → (f, v) ∈ ps.filterMap decodeToken → lastAssign f ps = some v := by
  intro ps
  induction ps with
  | nil => intro _ hmem; simp at hmem
  | cons t ts ih =>
    intro hcount hmem
    rw [List.filterMap_cons] at hmem
    unfold numAssigns at hcount
    rw [List.filterMap_cons] at hcount
    cases hd : decodeToken t with
    | none =>
      rw [hd] at hmem hcount
      have := ih hcount hmem
      rw [lastAssign, this]
    | some a =>
      obtain ⟨g, w⟩ := a
      rw [hd] at hmem hcount
      rw [List.countP_cons] at hcount
      rcases List.mem_cons.mp hmem with heq | hmem2
      · have hg : g = f := by
          have := congrArg Prod.fst heq.symm
          simpa using this
        have hw : w = v := by
          have := congrArg Prod.snd heq.symm
          simpa using this
        rw [hg] at hcount
        have hone : (if (f, w).1 == f then 1 else 0) = 1 := by simp
        rw [hone] at hcount
        have hrest : numAssigns f ts = 0 := by
          unfold numAssigns
          omega
        have hnone : lastAssign f ts = none := (lastAssign_none_iff f ts).mpr hrest
        simp [lastAssign, hnone, hd, hg, hw]
      · have hpos : 0 < (ts.filterMap decodeToken).countP (fun a => a.1 == f) := by
          rw [List.countP_pos_iff]
          exact ⟨(f, v), hmem2, by simp⟩
        have hrest : (ts.filterMap decodeToken).countP (fun a => a.1 == f) ≤ 1 := by
          split_ifs at hcount <;> omega
        have := ih hrest hmem2
        rw [lastAssign, this]

theorem lastAssign_append (f : SField) (xs ys : List (List Char)) :
    lastAssign f (xs ++ ys) = orDefault (lastAssign f ys) (lastAssign f xs) := by
  induction xs with
  | nil =>
    cases hl : lastAssign f ys <;> simp [lastAssign, orDefault, hl]
  | cons x xs ih =>
    rw [List.cons_append, lastAssign, ih, lastAssign]
    cases hl : lastAssign f ys with
    | some v => simp [orDefault]
    | none => simp [orDefault]

theorem isSpaceB_eq_isSpaceN (c : Char) : isSpaceB c = isSpaceN (canonN c) := by
  simp only [isSpaceB, isSpaceN, canonN]
  split_ifs with h
  · rw [decide_eq_decide]
    omega
  · rfl

theorem map_canonN_dropWhile (l : List Char) :
    (l.dropWhile isSpaceB).map canonN = (l.map canonN).dropWhile isSpaceN := by
  induction l with
  | nil => rfl
  | cons c l ih =>
    rw [List.map_cons, List.dropWhile_cons, List.dropWhile_cons, ← isSpaceB_eq_isSpaceN c]
    cases h : isSpaceB c <;> simp [h, ih]

theorem map_canonN_pyStrip (l : List Char) :
    (pyStrip l).map canonN = pyStripN (l.map canonN) := by
  unfold pyStrip pyStripN
  rw [List.map_reverse, map_canonN_dropWhile, List.map_reverse, map_canonN_dropWhile]

theorem listCaseEqB_map : ∀ {k k2 : List Char}, listCaseEqB k k2 = true →
    k.map canonN = k2.map canonN := by
  intro k
  induction k with
  | nil => intro k2 h; cases k2 <;> simp_all [listCaseEqB]
  | cons c k ih =>
    intro k2 h
    cases k2 with
    | nil => simp [listCaseEqB] at h
    | cons c2 k22 =>
      simp only [listCaseEqB, Bool.and_eq_true, beq_iff_eq] at h
      simp [List.map_cons, h.1, ih h.2]

theorem decodeToken_caseEq {t t2 : List Char} (h : tokenCaseEqB t t2 = true) :
    decodeToken t = decodeToken t2 := by
  unfold tokenCaseEqB at h
  unfold decodeToken
  cases h1 : splitFirst ':' t with
  | none =>
    cases h2 : splitFirst ':' t2 with
    | none => rfl
    | some p =>
      rw [h1, h2] at h
      simp at h
  | some p =>
    obtain ⟨k, v⟩ := p
    cases h2 : splitFirst ':' t2 with
    | none =>
      rw [h1, h2] at h
      simp at h
    | some p2 =>
      obtain ⟨k2, v2⟩ := p2
      rw [h1, h2] at h
      simp only [Bool.and_eq_true, beq_iff_eq] at h
      obtain ⟨hk, hv⟩ := h
      have hkey : keyField? (pyStrip k) = keyField? (pyStrip k2) := by
        unfold keyField?
        rw [map_canonN_pyStrip, map_canonN_pyStrip, listCaseEqB_map hk]
      dsimp only
      rw [hkey, hv]

theorem lastAssign_caseEq : ∀ {ps qs : List (List Char)}, tokensCaseEqB ps qs = true →
    ∀ f, lastAssign f ps = lastAssign f qs := by
  intro ps
  induction ps with
  | nil => intro qs h f; cases qs with
    | nil => rfl
    | cons q qs => simp [tokensCaseEqB] at h
  | cons t ts ih =>
    intro qs h f
    cases qs with
    | nil => simp [tokensCaseEqB] at h
    | cons t2 ts2 =>
      simp only [tokensCaseEqB, Bool.and_eq_true] at h
      rw [lastAssign, lastAssign, ih h.2 f, decodeToken_caseEq h.1]

theorem filterMap_caseEq : ∀ {ps qs : List (List Char)}, tokensCaseEqB ps qs = true →
    ps.filterMap decodeToken = qs.filterMap decodeToken := by
  intro ps
  induction ps with
  | nil => intro qs h; cases qs with
    | nil => rfl
    | cons q qs => simp [tokensCaseEqB] at h
  | cons t ts ih =>
    intro qs h
    cases qs with
    | nil => simp [tokensCaseEqB] at h
    | cons t2 ts2 =>
      simp only [tokensCaseEqB, Bool.and_eq_true] at h
      rw [List.filterMap_cons, List.filterMap_cons, ih h.2, decodeToken_caseEq h.1]

theorem parseAcc_eq_of_getField {A B : ParseAcc} (h : ∀ f, getField A f = getField B f) :
    A = B := by
  obtain ⟨a1, a2, a3, a4, a5⟩ := A
  obtain ⟨b1, b2, b3, b4, b5⟩ := B
  have h1 := h SField.pm1
  have h2 := h SField.pm25
  have h3 := h SField.pm10
  have h4 := h SField.temperature
  have h5 := h SField.humidity
  simp only [getField] at h1 h2 h3 h4 h5
  simp [h1, h2, h3, h4, h5]

/-! ## Claim theorems: LineParser -/

/-- Claim C6: whenever the token loop fails to extract any of pm25,
temperature or humidity from a line, `parse_data` returns the rejection
outcome `none`.  No exception escapes the parser for any input line: in this
embedding `parse_data` is a total function on arbitrary character sequences,
including empty lines and binary garbage. -/
theorem parse_rejects_missing_required (line : List Char)
    (h : (extractData line).pm25 = none ∨ (extractData line).temperature = none ∨
      (extractData line).humidity = none) :
    parse_data line = none := by
  rcases h25 : (extractData line).pm25 with _ | p <;>
    rcases ht : (extractData line).temperature with _ | tv <;>
      rcases hh : (extractData line).humidity with _ | hv <;>
        simp_all [parse_data]

/-- Witness for C6: a line carrying only temperature and humidity is
rejected. -/
theorem parse_rejects_missing_required_witness :
    parse_data (("TEMP:5,HUM:6").toList) = none :=
  parse_rejects_missing_required (("TEMP:5,HUM:6").toList)
    (Or.inl (by with_unfolding_all decide))

/-- Claim C7 counterexample: token order is not always irrelevant.  The two
lines below are valid, are token-by-token permutations of each other, and
parse to different readings, because the duplicated pm25 aliases `PM25` and
`PM2.5` keep the last occurrence. -/
theorem parse_token_order_counterexample :
    (splitOnChar ',' (("PM2.5:2,PM25:1,TEMP:3,HUM:4").toList)).Perm
      (splitOnChar ',' (("PM25:1,PM2.5:2,TEMP:3,HUM:4").toList)) ∧
    (parse_data (("PM25:1,PM2.5:2,TEMP:3,HUM:4").toList)).isSome = true ∧
    (parse_data (("PM2.5:2,PM25:1,TEMP:3,HUM:4").toList)).isSome = true ∧
    parse_data (("PM25:1,PM2.5:2,TEMP:3,HUM:4").toList) ≠
      parse_data (("PM2.5:2,PM25:1,TEMP:3,HUM:4").toList) := by
  refine ⟨?_, ?_, ?_, ?_⟩ <;> with_unfolding_all decide

/-- Claim C7 (amended): for every valid line in which no field is assigned by
more than one token, `parse_data` is invariant under any change of casing on
the keys followed by any permutation of the comma-separated tokens.  (The
unamended claim fails when a line assigns one field twice; see the
counterexample.) -/
theorem parse_invariant_token_order_and_case (line line2 : List Char)
    (ps qs rs : List (List Char))
    (hsplit1 : splitOnChar ',' line = ps)
    (hsplit2 : splitOnChar ',' line2 = rs)
    (hcase : tokensCaseEqB ps qs = true)
    (hperm : qs.Perm rs)
    (hvalid : (parse_data line).isSome = true)
    (hunique : ∀ f, numAssigns f ps ≤ 1) :
    parse_data line = parse_data line2 := by
  have hfm : ps.filterMap decodeToken = qs.filterMap decodeToken := filterMap_caseEq hcase
  have hkey : ∀ f, lastAssign f ps = lastAssign f rs := by
    intro f
    have hpq := lastAssign_caseEq hcase f
    have hcount : numAssigns f rs = numAssigns f ps := by
      unfold numAssigns
      rw [← (hperm.filterMap decodeToken).countP_eq, ← hfm]
    cases hla : lastAssign f qs with
    | none =>
      have h0 : numAssigns f qs = 0 := (lastAssign_none_iff f qs).mp hla
      have h0p : numAssigns f ps = 0 := by
        unfold numAssigns at h0 ⊢
        rw [hfm]
        exact h0
      have h0r : numAssigns f rs = 0 := by rw [hcount, h0p]
      rw [hpq, hla, (lastAssign_none_iff f rs).mpr h0r]
    | some v =>
      have hmem : (f, v) ∈ qs.filterMap decodeToken := lastAssign_mem hla
      have hmem2 : (f, v) ∈ rs.filterMap decodeToken :=
        (hperm.filterMap decodeToken).mem_iff.mp hmem
      have hle : numAssigns f rs ≤ 1 := by rw [hcount]; exact hunique f
      rw [hpq, hla, mem_lastAssign hle hmem2]
  have hacc : extractData line = extractData line2 := by
    unfold extractData
    rw [hsplit1, hsplit2]
    apply parseAcc_eq_of_getField
    intro f
    rw [getField_foldl, getField_foldl, hkey f]
  unfold parse_data
  rw [hacc]

/-- Witness for C7 (amended): recasing the keys of a duplicate-free valid
line and swapping its first two tokens preserves the parse. -/
theorem parse_invariant_token_order_and_case_witness :
    parse_data (("pm25:1,temp:2,hum:3").toList) =
      parse_data (("TEMP:2,PM25:1,HUM:3").toList) :=
  parse_invariant_token_order_and_case
    (("pm25:1,temp:2,hum:3").toList) (("TEMP:2,PM25:1,HUM:3").toList)
    [("pm25:1").toList, ("temp:2").toList, ("hum:3").toList]
    [("PM25:1").toList, ("TEMP:2").toList, ("HUM:3").toList]
    [("TEMP:2").toList, ("PM25:1").toList, ("HUM:3").toList]
    (by with_unfolding_all decide)
    (by with_unfolding_all decide)
    (by with_unfolding_all decide)
    (List.Perm.swap (("TEMP:2").toList) (("PM25:1").toList) [("HUM:3").toList])
    (by with_unfolding_all decide)
    (by intro f; cases f <;> with_unfolding_all decide)

/-- Claim C10: when several tokens of a line assign the same field (same key
or an alias of it), the parsed value of that field is the one of the last
such token in left-to-right order; earlier occurrences are silently
discarded. -/
theorem parse_keeps_last_occurrence (line : List Char) (l1 l2 : List (List Char))
    (t : List Char) (f : SField) (v : ℚ)
    (hsplit : splitOnChar ',' line = l1 ++ t :: l2)
    (hdec : decodeToken t = some (f, v))
    (hafter : ∀ t2 ∈ l2, (decodeToken t2).all (fun a => !(a.1 == f)) = true) :
    getField (extractData line) f = some v := by
  unfold extractData
  rw [hsplit, getField_foldl]
  have hnone : lastAssign f l2 = none := by
    rw [lastAssign_none_iff]
    unfold numAssigns
    rw [List.countP_eq_zero]
    intro a hmem
    obtain ⟨t2, ht2, hdec2⟩ := List.mem_filterMap.mp hmem
    have := hafter t2 ht2
    rw [hdec2] at this
    simpa using this
  have happ : lastAssign f (l1 ++ t :: l2) = some v := by
    rw [lastAssign_append]
    simp [lastAssign, hnone, hdec, orDefault]
  rw [happ]
  rfl

/-- Witness for C10: in `PM25:1,PM2.5:2,TEMP:3,HUM:4` the pm25 value kept is
2, from the later alias token `PM2.5:2`. -/
theorem parse_keeps_last_occurrence_witness :
    getField (extractData (("PM25:1,PM2.5:2,TEMP:3,HUM:4").toList)) SField.pm25 = some 2 :=
  parse_keeps_last_occurrence (("PM25:1,PM2.5:2,TEMP:3,HUM:4").toList)
    [("PM25:1").toList] [("TEMP:3").toList, ("HUM:4").toList]
    (("PM2.5:2").toList) SField.pm25 2
    (by with_unfolding_all decide)
    (by with_unfolding_all decide)
    (by with_unfolding_all decide)

/-! ## Claim theorems: AQI -/

/-- Claim C2 counterexample: at the band boundary pm25 = 35.4 the code
returns 99, not the 100 stated by the claim (its band-2 formula interpolates
from base 50 with slope 50/23.4 and truncates, so 35.4 gives
int(50 + 49.786...) = 99). -/
theorem aqi_at_35_4_ne_100 : calculate_aqi (35.4 : ℚ) ≠ 100 := by
  with_unfolding_all decide

/-- Claim C2 (amended): the AQI function returns 50 at pm25 = 12.0 and 0 at
pm25 = 0 as claimed, but at pm25 = 35.4 it returns exactly 99 rather than
100. -/
theorem aqi_boundary_values :
    calculate_aqi 12 = 50 ∧ calculate_aqi (35.4 : ℚ) = 99 ∧ calculate_aqi 0 = 0 := by
  refine ⟨?_, ?_, ?_⟩ <;> with_unfolding_all decide

theorem pyInt_eq_floor {x : ℚ} (h : 0 ≤ x) : pyInt x = ⌊x⌋ := by
  unfold pyInt
  rw [if_neg (not_lt.mpr h)]

theorem pyInt_bounds {a : ℚ} (h0 : 0 ≤ a) (h500 : a ≤ 500) :
    0 ≤ pyInt a ∧ pyInt a ≤ 500 := by
  rw [pyInt_eq_floor h0]
  constructor
  · exact Int.floor_nonneg.mpr h0
  · have hmono : ⌊a⌋ ≤ ⌊(500 : ℚ)⌋ := Int.floor_mono h500
    have h5 : ⌊(500 : ℚ)⌋ = 500 := by
      rw [show ((500 : ℚ)) = ((500 : ℤ) : ℚ) by norm_num, Int.floor_intCast]
    omega

/-- Claim C9: for every non-negative pm25 input the AQI is an integer in
[0, 500]; in particular inputs above 500.4 are clamped, so the result never
exceeds 500. -/
theorem aqi_range (q : ℚ) (h : 0 ≤ q) :
    0 ≤ calculate_aqi q ∧ calculate_aqi q ≤ 500 := by
  unfold calculate_aqi
  split_ifs with h1 h2 h3 h4 h5
  · exact pyInt_bounds (by nlinarith) (by nlinarith)
  · exact pyInt_bounds (by nlinarith) (by nlinarith)
  · exact pyInt_bounds (by nlinarith) (by nlinarith)
  · exact pyInt_bounds (by nlinarith) (by nlinarith)
  · exact pyInt_bounds (by nlinarith) (by nlinarith)
  · rcases le_total q (500.4 : ℚ) with hq | hq
    · rw [min_eq_left hq]
      exact pyInt_bounds (by nlinarith) (by nlinarith)
    · rw [min_eq_right hq]
      exact pyInt_bounds (by norm_num) (by norm_num)

/-- Witness for C9: the clamped band at pm25 = 600. -/
theorem aqi_range_witness : 0 ≤ calculate_aqi 600 ∧ calculate_aqi 600 ≤ 500 :=
  aqi_range 600 (by norm_num)

/-! ## Claim theorems: Aggregator and rollover -/

theorem calc_hourly_average_nil (now : Nat) : calculate_hourly_average [] now = none := rfl

theorem calc_hourly_average_some_timestamp {d : List SReading} {n : Nat} {hh : HourlyAvg}
    (hc : calculate_hourly_average d n = some hh) : hh.timestamp = truncHour n := by
  unfold calculate_hourly_average at hc
  split_ifs at hc with he
  have h2 := Option.some.inj hc
  rw [← h2]

theorem isEmpty_eq_false_of_ne_nil {α : Type} {l : List α} (h : l ≠ []) :
    l.isEmpty = false := by
  cases l with
  | nil => exact absurd rfl h
  | cons x xs => rfl

/-- Claim C1 counterexample: a bucket opened during hour 0 (its only reading
was captured at t = 100 s) but rolled over at t = 3605 s is stamped with the
rollover clock's hour 3600, not with its open-time hour 0. -/
theorem hour_start_counterexample :
    (calculate_hourly_average [⟨none, some 10, none, some 20, some 30, 100⟩] 3605).map
      HourlyAvg.timestamp = some 3600 ∧ truncHour 100 = 0 ∧ (3600 : Nat) ≠ 0 := by
  refine ⟨rfl, rfl, by decide⟩

/-- Claim C1 (amended): for every non-empty bucket the summary's hour_start
equals the wall-clock time at which the rollover runs, truncated to the hour
boundary — not the bucket's open-time hour.  (The code keeps no bucket-open
timestamp at all; it stamps `datetime.now()` truncated at save time.) -/
theorem hour_start_is_rollover_hour (data : List SReading) (now : Nat) (h : data ≠ []) :
    ∃ hh, calculate_hourly_average data now = some hh ∧ hh.timestamp = truncHour now := by
  unfold calculate_hourly_average
  rw [isEmpty_eq_false_of_ne_nil h]
  exact ⟨_, rfl, rfl⟩

/-- Witness for C1 (amended): a singleton bucket rolled over at t = 7205. -/
theorem hour_start_is_rollover_hour_witness :
    ∃ hh, calculate_hourly_average [⟨none, some 25, none, some 20, some 30, 7200⟩] 7205
        = some hh ∧ hh.timestamp = truncHour 7205 :=
  hour_start_is_rollover_hour [⟨none, some 25, none, some 20, some 30, 7200⟩] 7205
    (List.cons_ne_nil _ _)

theorem listAvg_specAvgOK (l : List ℚ) : specAvgOK l (listAvg l) := by
  unfold listAvg
  split_ifs with h
  · simp only [specAvgOK]
    exact List.isEmpty_iff.mp h
  · have hne : l ≠ [] := by
      intro hnil
      rw [hnil] at h
      exact h rfl
    refine ⟨hne, ?_⟩
    have hlen : (l.length : ℚ) ≠ 0 := by
      simp only [ne_eq, Nat.cast_eq_zero, List.length_eq_zero]
      exact hne
    field_simp

/-- Claim C4: for every non-empty bucket, rollover computes each metric's
average as the arithmetic mean over the non-null values of that metric
(undefined when the metric has no contributing samples) and sample_count as
the number of readings in the bucket; in particular a bucket whose readings
have pm25 values 10, 20, 30 yields pm25_avg = 20 and sample_count = 3. -/
theorem rollover_mean_and_count :
    (∀ (data : List SReading) (now : Nat), data ≠ [] →
      ∃ hh, calculate_hourly_average data now = some hh ∧
        specAvgOK (data.filterMap SReading.pm1) hh.pm1_avg ∧
        specAvgOK (data.filterMap SReading.pm25) hh.pm25_avg ∧
        specAvgOK (data.filterMap SReading.pm10) hh.pm10_avg ∧
        specAvgOK (data.filterMap SReading.temperature) hh.temperature_avg ∧
        specAvgOK (data.filterMap SReading.humidity) hh.humidity_avg ∧
        hh.sample_count = data.length) ∧
    (calculate_hourly_average
        [⟨none, some 10, none, some 5, some 5, 0⟩,
         ⟨none, some 20, none, some 5, some 5, 0⟩,
         ⟨none, some 30, none, some 5, some 5, 0⟩] 0).map
      (fun hh => (hh.pm25_avg, hh.sample_count)) = some (some 20, 3) := by
  constructor
  · intro data now h
    unfold calculate_hourly_average
    rw [isEmpty_eq_false_of_ne_nil h]
    exact ⟨_, rfl, listAvg_specAvgOK _, listAvg_specAvgOK _, listAvg_specAvgOK _,
      listAvg_specAvgOK _, listAvg_specAvgOK _, rfl⟩
  · with_unfolding_all decide

/-- Witness for C4: the general statement applied to a concrete two-reading
bucket. -/
theorem rollover_mean_and_count_witness :
    ∃ hh, calculate_hourly_average
        [⟨none, some 7, none, none, some 50, 0⟩, ⟨some 1, none, none, none, some 60, 9⟩] 42
        = some hh ∧
      specAvgOK ([⟨none, some 7, none, none, some 50, 0⟩,
          ⟨some 1, none, none, none, some 60, 9⟩].filterMap SReading.pm1) hh.pm1_avg ∧
      specAvgOK ([⟨none, some 7, none, none, some 50, 0⟩,
          ⟨some 1, none, none, none, some 60, 9⟩].filterMap SReading.pm25) hh.pm25_avg ∧
      specAvgOK ([⟨none, some 7, none, none, some 50, 0⟩,
          ⟨some 1, none, none, none, some 60, 9⟩].filterMap SReading.pm10) hh.pm10_avg ∧
      specAvgOK ([⟨none, some 7, none, none, some 50, 0⟩,
          ⟨some 1, none, none, none, some 60, 9⟩].filterMap SReading.temperature)
        hh.temperature_avg ∧
      specAvgOK ([⟨none, some 7, none, none, some 50, 0⟩,
          ⟨some 1, none, none, none, some 60, 9⟩].filterMap SReading.humidity)
        hh.humidity_avg ∧
      hh.sample_count =
        ([⟨none, some 7, none, none, some 50, 0⟩,
          ⟨some 1, none, none, none, some 60, 9⟩] : List SReading).length :=
  rollover_mean_and_count.1
    [⟨none, some 7, none, none, some 50, 0⟩, ⟨some 1, none, none, none, some 60, 9⟩] 42
    (List.cons_ne_nil _ _)

/-- Claim C5 (code bug): when every reading's pm25 is 0, the pm25 average is
defined and equals 0, yet the emitted AQI is `None`, because the source tests
`if result['pm25_avg']:` and Python treats the float 0.0 as falsy; the
breakpoint table value for an average of 0 would be 0. -/
theorem zero_pm25_average_gives_no_aqi :
    (calculate_hourly_average [⟨none, some 0, none, some 21, some 40, 0⟩] 3600).map
      (fun hh => (hh.pm25_avg, hh.aqi_avg)) = some (some 0, none) ∧
    calculate_aqi 0 = 0 := by
  refine ⟨?_, ?_⟩ <;> with_unfolding_all decide

/-- Claim C3 counterexample: a trace in which the exact-minute trigger fires
in two consecutive check cycles of the same minute-0 window, with a new
reading ingested in between, produces two summaries with the same
hour_start 3600. -/
theorem rollover_duplicate_hour_start :
    ((runSched ⟨[], none⟩
      [SchedEvent.ingest ⟨none, some 10, none, some 20, some 30, 3601⟩,
       SchedEvent.tick 3602,
       SchedEvent.ingest ⟨none, some 12, none, some 20, some 30, 3603⟩,
       SchedEvent.tick 3604]).2.map HourlyAvg.timestamp) = [3600, 3600] ∧
    ¬ ((runSched ⟨[], none⟩
      [SchedEvent.ingest ⟨none, some 10, none, some 20, some 30, 3601⟩,
       SchedEvent.tick 3602,
       SchedEvent.ingest ⟨none, some 12, none, some 20, some 30, 3603⟩,
       SchedEvent.tick 3604]).2.map HourlyAvg.timestamp).Nodup := by
  refine ⟨?_, ?_⟩
  · with_unfolding_all decide
  · rw [show ((runSched ⟨[], none⟩
      [SchedEvent.ingest ⟨none, some 10, none, some 20, some 30, 3601⟩,
       SchedEvent.tick 3602,
       SchedEvent.ingest ⟨none, some 12, none, some 20, some 30, 3603⟩,
       SchedEvent.tick 3604]).2.map HourlyAvg.timestamp) = [3600, 3600] from
        by with_unfolding_all decide]
    decide

/-- Claim C3 (amended): within a single check cycle of the rollover loop at
most one summary is emitted, even when both the exact-minute trigger and the
elapsed-time trigger are examined — after the first trigger saves, the
buffer is empty and the recorded last-sample hour makes the second condition
false.  Across distinct check cycles inside the same minute-0 window,
however, two summaries with the same hour_start can be emitted when readings
arrive in between (see the counterexample); only the database upsert keyed
on the timestamp keeps one stored row per hour. -/
theorem rollover_at_most_one_per_cycle (s : SchedState) (now : Nat) :
    (scheduler_tick s now).2.length ≤ 1 := by
  unfold scheduler_tick
  by_cases h1 : minuteOf now = 0 ∧ secondOf now < 10
  · simp only [if_pos h1]
    cases hc : calculate_hourly_average s.current_hour_data now with
    | none =>
      simp only [save_hourly_sample, hc]
      cases hl : s.last_hourly_sample with
      | none => simp
      | some hh =>
        by_cases h2 : (3600 : ℤ) ≤ (now : ℤ) - (hh.timestamp : ℤ)
        · simp only [if_pos h2, save_hourly_sample, calc_hourly_average_nil]
          simp
        · simp only [if_neg h2]
          simp
    | some hh =>
      simp only [save_hourly_sample, hc]
      have ht : hh.timestamp = truncHour now := calc_hourly_average_some_timestamp hc
      have hcond : ¬ (3600 : ℤ) ≤ (now : ℤ) - (hh.timestamp : ℤ) := by
        rw [ht]
        unfold truncHour
        omega
      simp only [if_neg hcond]
      simp
  · simp only [if_neg h1]
    cases hl : s.last_hourly_sample with
    | none => simp
    | some hh =>
      by_cases h2 : (3600 : ℤ) ≤ (now : ℤ) - (hh.timestamp : ℤ)
      · simp only [if_pos h2]
        cases hc : calculate_hourly_average s.current_hour_data now <;>
          simp [save_hourly_sample, hc]
      · simp only [if_neg h2]
        simp

/-! ## Claim theorems: DeviceLink read loop -/

/-- Claim C8 counterexample: after a transient I/O error, with no caller
restart anywhere in the trace, the very next poll iteration reads and
dispatches a full reading — the loop resumes reading on its own, contrary
to the claim that no further reads happen until the caller restarts it. -/
theorem read_after_error_counterexample :
    (run_read_loop ⟨true, true⟩
      [ReadEvent.ioError, ReadEvent.line (("PM2.5:25.1,TEMP:22.5,HUM:45.0").toList)]).2 =
      [⟨none, 25.1, none, 22.5, 45.0⟩] := by
  with_unfolding_all decide

/-- Claim C8 (amended): a transient I/O error inside the read loop sets
`is_connected := false` and pauses 5 seconds, but it does not stop the loop:
`running` is untouched, and on the next iteration the loop polls and reads
again by itself, with no caller restart. -/
theorem read_error_disconnects_then_loop_resumes (st : ReaderState) (raw : List Char)
    (h : st.running = true) :
    (read_loop_step st ReadEvent.ioError).1.is_connected = false ∧
    (read_loop_step st ReadEvent.ioError).2.2 = 5 ∧
    (read_loop_step st ReadEvent.ioError).1.running = true ∧
    (run_read_loop st [ReadEvent.ioError, ReadEvent.line raw]).2 =
      ((read_loop_step { st with is_connected := false } (ReadEvent.line raw)).2.1).toList := by
  refine ⟨rfl, rfl, ?_, ?_⟩
  · simp [read_loop_step, h]
  · simp [run_read_loop, read_loop_step, h]

/-- Witness for C8 (amended): the error step from the connected running
state, followed by a poll that delivers a valid line. -/
theorem read_error_disconnects_then_loop_resumes_witness :
    (read_loop_step ⟨true, true⟩ ReadEvent.ioError).1.is_connected = false ∧
    (read_loop_step ⟨true, true⟩ ReadEvent.ioError).2.2 = 5 ∧
    (read_loop_step ⟨true, true⟩ ReadEvent.ioError).1.running = true ∧
    (run_read_loop ⟨true, true⟩
      [ReadEvent.ioError, ReadEvent.line (("PM2.5:25.1,TEMP:22.5,HUM:45.0").toList)]).2 =
      ((read_loop_step ⟨true, false⟩
        (ReadEvent.line (("PM2.5:25.1,TEMP:22.5,HUM:45.0").toList))).2.1).toList :=
  read_error_disconnects_then_loop_resumes ⟨true, true⟩
    (("PM2.5:25.1,TEMP:22.5,HUM:45.0").toList) rfl
